import Mathlib

/-!
Verification of the snake-game simulation core found in
`app/src/main/cpp/Renderer.cpp` (class `Renderer`).

The simulation state and every operation the claims are about are embedded
shallowly below, directly from the C++ source:

* `Cell`, `Direction`, `SimState` mirror the `Renderer::Cell` struct, the
  `Renderer::Direction` enum and the simulation-relevant member variables
  (`snake_`, `botSnake_`, `food_`, `direction_`, `queuedDirection_`,
  `botDirection_`, `timeAccumulator_`, `needsModelUpdate_`).
* `Env` gathers the configuration constants (`gridWidth_`, `gridHeight_`,
  `targetFoodCount_`, `moveInterval_`) together with the process's random
  shuffle capability (`std::shuffle` with `randomEngine_`), which is modelled
  as an opaque-to-the-proof list permutation function; where a property needs
  it we assume only that shuffling preserves length, which `std::shuffle`
  guarantees.
* `resetGame`/`spawnFood` recurse into each other when the board is saturated;
  the C++ recursion is modelled with an explicit fuel parameter
  (`spawnFoodF`/`resetGameF`): fuel `0` returns the state unchanged, which is
  only reachable when the freshly reseeded board is itself saturated.
* Wall-clock time (`std::chrono`) is modelled with exact rationals; the real
  code uses `double` seconds.  `lastFrameTime_` and the GL/EGL/texture state
  are rendering concerns outside the simulation core and are not modelled.
-/

/-- `Renderer::Cell`: an integer pair. -/
structure Cell where
  x : Int
  y : Int
deriving DecidableEq, Repr

instance : Inhabited Cell := ⟨⟨0, 0⟩⟩

/-- `Renderer::Direction`. -/
inductive Direction where
  | Up
  | Down
  | Left
  | Right
deriving DecidableEq, Repr

/-- Configuration constants fixed at process start, plus the shuffle
capability of the seeded random engine used by `spawnFood`. -/
structure Env where
  gridWidth : Int
  gridHeight : Int
  targetFoodCount : Nat
  moveInterval : ℚ
  shuffle : List Cell → List Cell

/-- The simulation-relevant mutable state of `Renderer`. -/
structure SimState where
  snake : List Cell
  botSnake : List Cell
  food : List Cell
  direction : Direction
  queuedDirection : Direction
  botDirection : Direction
  timeAcc : ℚ
  needsModelUpdate : Bool
deriving DecidableEq, Repr

/-- `Renderer::isOpposite`. -/
def isOpposite (lhs rhs : Direction) : Bool :=
  match lhs, rhs with
  | Direction.Up, Direction.Down => true
  | Direction.Down, Direction.Up => true
  | Direction.Left, Direction.Right => true
  | Direction.Right, Direction.Left => true
  | _, _ => false

/-- The exact opposite of a direction (used to state the anti-reversal
claims; `Up`/`Down` and `Left`/`Right` are the opposite pairs). -/
def oppositeDir (d : Direction) : Direction :=
  match d with
  | Direction.Up => Direction.Down
  | Direction.Down => Direction.Up
  | Direction.Left => Direction.Right
  | Direction.Right => Direction.Left

/-- `Renderer::computeNextCell`: shift one cell in `direction`, then wrap
each coordinate into `[0, dimension)` exactly as the source does. -/
def computeNextCell (env : Env) (current : Cell) (direction : Direction) : Cell :=
  let next :=
    match direction with
    | Direction.Up => { current with y := current.y + 1 }
    | Direction.Down => { current with y := current.y - 1 }
    | Direction.Left => { current with x := current.x - 1 }
    | Direction.Right => { current with x := current.x + 1 }
  let nx :=
    if 0 < env.gridWidth then
      if next.x < 0 then env.gridWidth - 1
      else if env.gridWidth ≤ next.x then 0
      else next.x
    else next.x
  let ny :=
    if 0 < env.gridHeight then
      if next.y < 0 then env.gridHeight - 1
      else if env.gridHeight ≤ next.y then 0
      else next.y
    else next.y
  ⟨nx, ny⟩

/-- `Renderer::isCellOccupiedBySnake`: `std::any_of` over the segments. -/
def isCellOccupiedBySnake (cell : Cell) (snake : List Cell) : Bool :=
  snake.any (fun segment => segment.x == cell.x && segment.y == cell.y)

/-- The seeding part of `Renderer::resetGame` (everything before the call to
`spawnFood`): clear and reseed both snakes, default both directions, zero the
tick accumulator, clear the food list. -/
def seedState (env : Env) : SimState :=
  let startX := env.gridWidth / 2
  let startY := env.gridHeight / 2
  { snake := [⟨startX, startY⟩, ⟨startX - 1, startY⟩, ⟨startX - 2, startY⟩],
    botSnake := [⟨startX, startY + 3⟩, ⟨startX + 1, startY + 3⟩, ⟨startX + 2, startY + 3⟩],
    food := [],
    direction := Direction.Right,
    queuedDirection := Direction.Right,
    botDirection := Direction.Left,
    timeAcc := 0,
    needsModelUpdate := false }

/-- The candidate enumeration of `Renderer::spawnFood`: every grid cell not
occupied by the player snake, the bot snake, or the existing food, collected
in the source's row-major order. -/
def emptyCellsList (env : Env) (s : SimState) : List Cell :=
  (List.range env.gridHeight.toNat).flatMap (fun y =>
    (List.range env.gridWidth.toNat).filterMap (fun x =>
      let c : Cell := ⟨(x : Int), (y : Int)⟩
      if isCellOccupiedBySnake c s.snake || isCellOccupiedBySnake c s.botSnake
          || isCellOccupiedBySnake c s.food then
        none
      else
        some c))

/-- `Renderer::spawnFood`, with fuel for the `resetGame` recursion on a
saturated board.  The saturated branch is definitionally `resetGameF n env`. -/
def spawnFoodF : Nat → Env → SimState → SimState
  | 0, _, s => s
  | n + 1, env, s =>
    if env.targetFoodCount ≤ s.food.length then s
    else
      let emptyCells := emptyCellsList env s
      if emptyCells.isEmpty then
        let s' := spawnFoodF n env (seedState env)
        { s' with needsModelUpdate := true }
      else
        let shuffled := env.shuffle emptyCells
        let spawnCount := min shuffled.length (env.targetFoodCount - s.food.length)
        { s with
            food := s.food ++ shuffled.take spawnCount,
            needsModelUpdate := if 0 < spawnCount then true else s.needsModelUpdate }

/-- `Renderer::resetGame`: reseed, respawn food, mark dirty.  The result does
not depend on the pre-reset state. -/
def resetGameF (n : Nat) (env : Env) : SimState :=
  let s' := spawnFoodF n env (seedState env)
  { s' with needsModelUpdate := true }

/-- The condition under which a `spawnFood` call performs a reset instead of
spawning: it still wants food and finds zero candidate cells. -/
def spawnWouldReset (env : Env) (s : SimState) : Bool :=
  decide (s.food.length < env.targetFoodCount) && (emptyCellsList env s).isEmpty

/-- Sentinel initial value of `bestDistance` in `Renderer::chooseBotDirection`
(`std::numeric_limits<int>::max()`). -/
def intMaxC : Int := 2147483647

/-- One axis of the toroidal distance in `Renderer::chooseBotDirection`:
`dx = abs(a - b); if (dim > 0) dx = min(dx, dim - dx);`. -/
def axisDist (a b dim : Int) : Int :=
  let d : Int := (a - b).natAbs
  if 0 < dim then min d (dim - d) else d

/-- The per-candidate distance of `Renderer::chooseBotDirection`: minimum over
all food cells of the wrapped Manhattan distance, `0` when there is no food. -/
def candidateDistance (env : Env) (s : SimState) (nextCell : Cell) : Int :=
  if s.food.isEmpty then 0
  else
    s.food.foldl
      (fun acc f =>
        min acc (axisDist nextCell.x f.x env.gridWidth + axisDist nextCell.y f.y env.gridHeight))
      intMaxC

/-- The `continue` filter of the candidate loop in
`Renderer::chooseBotDirection`: a direction survives unless it reverses a
longer-than-one bot, or its prospective next cell is occupied by the bot's own
body or the player's body. -/
def botKeep (env : Env) (s : SimState) (d : Direction) : Bool :=
  !(decide (1 < s.botSnake.length) && isOpposite d s.botDirection)
    && !isCellOccupiedBySnake (computeNextCell env s.botSnake.headI d) s.botSnake
    && !isCellOccupiedBySnake (computeNextCell env s.botSnake.headI d) s.snake

/-- The fixed enumeration order of the candidate loop. -/
def dirList : List Direction :=
  [Direction.Up, Direction.Down, Direction.Left, Direction.Right]

/-- The candidate loop of `Renderer::chooseBotDirection`: track the best
(direction, distance) pair, replacing only on strictly smaller distance. -/
def chooseFold (dist : Direction → Int) (keep : Direction → Bool) :
    List Direction → Direction × Int → Direction × Int
  | [], acc => acc
  | d :: ds, acc =>
    chooseFold dist keep ds
      (if keep d && decide (dist d < acc.2) then (d, dist d) else acc)

/-- Distance assigned to a direction by `Renderer::chooseBotDirection`. -/
def botMoveDist (env : Env) (s : SimState) (d : Direction) : Int :=
  candidateDistance env s (computeNextCell env s.botSnake.headI d)

/-- `Renderer::chooseBotDirection`. -/
def chooseBotDirection (env : Env) (s : SimState) : Direction :=
  if s.botSnake.isEmpty then s.botDirection
  else
    (chooseFold (botMoveDist env s) (botKeep env s) dirList (s.botDirection, intMaxC)).1

/-- The surviving candidate list, in enumeration order. -/
def botCandidates (env : Env) (s : SimState) : List Direction :=
  dirList.filter (botKeep env s)

/-- `Renderer::queueDirection`. -/
def queueDirection (requested : Direction) (s : SimState) : SimState :=
  if !isOpposite requested s.direction || decide (s.snake.length ≤ 1) then
    { s with queuedDirection := requested }
  else s

/-- The commit step at the top of `Renderer::advanceSnake`: promote
`queuedDirection_` to `direction_` under the anti-reversal rule. -/
def commitDirection (s : SimState) : Direction :=
  if !isOpposite s.queuedDirection s.direction || decide (s.snake.length ≤ 1) then
    s.queuedDirection
  else s.direction

/-- The direction the bot commits to in `Renderer::advanceBotSnake`. -/
def botCommitDirection (env : Env) (s : SimState) : Direction :=
  if s.botSnake.length ≤ 1 then chooseBotDirection env s
  else
    let desired := chooseBotDirection env s
    if !isOpposite desired s.botDirection then desired else s.botDirection

/-- The player's prospective new head for a tick started in state `s`
(computed with the committed direction). -/
def playerNewHead (env : Env) (s : SimState) : Cell :=
  computeNextCell env s.snake.headI (commitDirection s)

/-- The bot's prospective new head for a tick started in state `s`. -/
def botNewHead (env : Env) (s : SimState) : Cell :=
  computeNextCell env s.botSnake.headI (botCommitDirection env s)

/-- `Renderer::advanceBotSnake`.  The `Bool` is the C++ return value:
`false` means the bot collided and the whole state was reset. -/
def advanceBotF (fuel : Nat) (env : Env) (s : SimState) : SimState × Bool :=
  if s.botSnake.isEmpty then (s, true)
  else
    let newDir := botCommitDirection env s
    let s1 := { s with botDirection := newDir }
    let newHead := computeNextCell env s1.botSnake.headI newDir
    if isCellOccupiedBySnake newHead s1.botSnake || isCellOccupiedBySnake newHead s1.snake then
      (resetGameF fuel env, false)
    else
      ({ s1 with botSnake := newHead :: s1.botSnake }, true)

/-- `Renderer::advanceSnake`, instrumented with two ghost flags: the first is
`true` exactly when one of the collision `resetGame()` calls ran, the second
exactly when the trailing `spawnFood()` call reset a saturated board. -/
def advanceSnakeRF (fuel : Nat) (env : Env) (s : SimState) : SimState × Bool × Bool :=
  if s.snake.isEmpty || s.botSnake.isEmpty then (s, false, false)
  else
    let s1 := { s with direction := commitDirection s }
    let br := advanceBotF fuel env s1
    if !br.2 then (br.1, true, false)
    else
      let s2 := br.1
      let newHead := computeNextCell env s2.snake.headI s2.direction
      if isCellOccupiedBySnake newHead s2.snake || isCellOccupiedBySnake newHead s2.botSnake then
        (resetGameF fuel env, true, false)
      else
        let playerAte := s2.food.any (fun f => f.x == newHead.x && f.y == newHead.y)
        let s3 := { s2 with
          snake := if playerAte then newHead :: s2.snake else (newHead :: s2.snake).dropLast,
          food := s2.food.filter (fun f => !(f.x == newHead.x && f.y == newHead.y)) }
        if s3.botSnake.isEmpty then
          let doSpawn := playerAte
          let s6 := if doSpawn then spawnFoodF fuel env s3 else s3
          ({ s6 with needsModelUpdate := true }, false,
            if doSpawn then spawnWouldReset env s3 else false)
        else
          let botHead := s3.botSnake.headI
          let botAte := s3.food.any (fun f => f.x == botHead.x && f.y == botHead.y)
          let s4 := { s3 with
            food := s3.food.filter (fun f => !(f.x == botHead.x && f.y == botHead.y)),
            botSnake := if botAte then s3.botSnake else s3.botSnake.dropLast }
          if botHead.x == newHead.x && botHead.y == newHead.y then
            (resetGameF fuel env, true, false)
          else
            let doSpawn := playerAte || botAte
            let s6 := if doSpawn then spawnFoodF fuel env s4 else s4
            ({ s6 with needsModelUpdate := true }, false,
              if doSpawn then spawnWouldReset env s4 else false)

/-- `Renderer::advanceSnake` (the state it leaves behind). -/
def advanceSnakeF (fuel : Nat) (env : Env) (s : SimState) : SimState :=
  (advanceSnakeRF fuel env s).1

/-- The state a collision-free tick produces (the normal path of
`advanceSnake`, written out flat): both snakes advance, each grows by one
exactly when its new head sits on a still-present food cell, the eaten food
cells are removed, the spawner refills when anything was eaten, and the dirty
flag is set. -/
def tickStepped (fuel : Nat) (env : Env) (s : SimState) : SimState :=
  let nh := playerNewHead env s
  let bh := botNewHead env s
  let playerAte := s.food.any (fun f => f.x == nh.x && f.y == nh.y)
  let food2 := s.food.filter (fun f => !(f.x == nh.x && f.y == nh.y))
  let botAte := food2.any (fun f => f.x == bh.x && f.y == bh.y)
  let food3 := food2.filter (fun f => !(f.x == bh.x && f.y == bh.y))
  let s4 : SimState :=
    { snake := if playerAte then nh :: s.snake else (nh :: s.snake).dropLast,
      botSnake := if botAte then bh :: s.botSnake else (bh :: s.botSnake).dropLast,
      food := food3,
      direction := commitDirection s,
      queuedDirection := s.queuedDirection,
      botDirection := botCommitDirection env s,
      timeAcc := s.timeAcc,
      needsModelUpdate := s.needsModelUpdate }
  let s6 := if playerAte || botAte then spawnFoodF fuel env s4 else s4
  { s6 with needsModelUpdate := true }

/-- Whether the trailing `spawnFood` call of a collision-free tick resets a
saturated board. -/
def tickSpawnFlag (env : Env) (s : SimState) : Bool :=
  let nh := playerNewHead env s
  let bh := botNewHead env s
  let playerAte := s.food.any (fun f => f.x == nh.x && f.y == nh.y)
  let food2 := s.food.filter (fun f => !(f.x == nh.x && f.y == nh.y))
  let botAte := food2.any (fun f => f.x == bh.x && f.y == bh.y)
  let food3 := food2.filter (fun f => !(f.x == bh.x && f.y == bh.y))
  let s4 : SimState :=
    { snake := if playerAte then nh :: s.snake else (nh :: s.snake).dropLast,
      botSnake := if botAte then bh :: s.botSnake else (bh :: s.botSnake).dropLast,
      food := food3,
      direction := commitDirection s,
      queuedDirection := s.queuedDirection,
      botDirection := botCommitDirection env s,
      timeAcc := s.timeAcc,
      needsModelUpdate := s.needsModelUpdate }
  if playerAte || botAte then spawnWouldReset env s4 else false

/-- One iteration body of the fixed-timestep loop in `Renderer::render`:
`timeAccumulator_ -= moveInterval_; advanceSnake();`. -/
def frameBody (tickFuel : Nat) (env : Env) (s : SimState) : SimState :=
  advanceSnakeF tickFuel env { s with timeAcc := s.timeAcc - env.moveInterval }

/-- The `while (timeAccumulator_ >= moveInterval_)` loop of
`Renderer::render`, with fuel bounding the iteration count; also counts the
executed ticks. -/
def renderTicksF : Nat → Nat → Env → SimState → SimState × Nat
  | 0, _, _, s => (s, 0)
  | loopFuel + 1, tickFuel, env, s =>
    if env.moveInterval ≤ s.timeAcc then
      let r := renderTicksF loopFuel tickFuel env (frameBody tickFuel env s)
      (r.1, r.2 + 1)
    else (s, 0)

/-- The simulation part of `Renderer::render` for one frame: add the
wall-clock delta to the accumulator, then drain whole move intervals. -/
def renderF (loopFuel tickFuel : Nat) (env : Env) (s : SimState) (delta : ℚ) :
    SimState × Nat :=
  renderTicksF loopFuel tickFuel env { s with timeAcc := s.timeAcc + delta }

/-! ### Concrete fixtures used by witnesses and counterexamples

`envH` is the spec's 10×10 scenario grid with the identity shuffle (any fixed
permutation serves, since the properties checked here do not depend on the
draw order).  The states below are the spec's scenario states. -/

/-- A 10×10 environment with unit move interval and identity shuffle. -/
def envH : Env :=
  { gridWidth := 10, gridHeight := 10, targetFoodCount := 5, moveInterval := 1, shuffle := id }

/-- Head-on collision scenario: player `[(5,5),(4,5),(3,5)]` moving Right,
bot `[(6,5),(7,5),(8,5)]` moving Left, no food. -/
def sHeadOn : SimState :=
  { snake := [⟨5, 5⟩, ⟨4, 5⟩, ⟨3, 5⟩],
    botSnake := [⟨6, 5⟩, ⟨7, 5⟩, ⟨8, 5⟩],
    food := [],
    direction := Direction.Right,
    queuedDirection := Direction.Right,
    botDirection := Direction.Left,
    timeAcc := 0,
    needsModelUpdate := false }

/-- Food-consumption scenario: player `[(5,5),(4,5),(3,5)]` moving Right with
food at `(6,5)`; the bot is a single far-away segment. -/
def sEat : SimState :=
  { snake := [⟨5, 5⟩, ⟨4, 5⟩, ⟨3, 5⟩],
    botSnake := [⟨0, 9⟩],
    food := [⟨6, 5⟩],
    direction := Direction.Right,
    queuedDirection := Direction.Right,
    botDirection := Direction.Left,
    timeAcc := 0,
    needsModelUpdate := false }

/-- A collision-free state with a fractional accumulator, used to exercise the
fixed-timestep loop. -/
def sFree : SimState :=
  { snake := [⟨5, 5⟩, ⟨4, 5⟩, ⟨3, 5⟩],
    botSnake := [⟨9, 9⟩],
    food := [⟨0, 5⟩],
    direction := Direction.Right,
    queuedDirection := Direction.Right,
    botDirection := Direction.Left,
    timeAcc := 0,
    needsModelUpdate := false }

/-- A 2×2 environment for the board-saturation scenario. -/
def envT : Env :=
  { gridWidth := 2, gridHeight := 2, targetFoodCount := 1, moveInterval := 1, shuffle := id }

/-- A state whose snakes occupy every cell of the 2×2 grid. -/
def sSat : SimState :=
  { snake := [⟨0, 0⟩, ⟨0, 1⟩, ⟨1, 1⟩, ⟨1, 0⟩],
    botSnake := [⟨0, 0⟩],
    food := [],
    direction := Direction.Right,
    queuedDirection := Direction.Right,
    botDirection := Direction.Left,
    timeAcc := 0,
    needsModelUpdate := false }

/-- A state with an empty player snake (single-snake data never occurs live,
but the functions are total over it). -/
def sEmptyPlayer : SimState :=
  { snake := [],
    botSnake := [⟨0, 0⟩],
    food := [],
    direction := Direction.Right,
    queuedDirection := Direction.Right,
    botDirection := Direction.Left,
    timeAcc := 0,
    needsModelUpdate := false }

/-- A state with an empty bot snake (the spec's single-snake mode). -/
def sNoBot : SimState :=
  { snake := [⟨5, 5⟩, ⟨4, 5⟩, ⟨3, 5⟩],
    botSnake := [],
    food := [⟨6, 5⟩],
    direction := Direction.Right,
    queuedDirection := Direction.Right,
    botDirection := Direction.Left,
    timeAcc := 0,
    needsModelUpdate := false }

/-! ### Bridging lemmas -/

/-- The source's coordinate-wise cell comparison is cell equality. -/
theorem cellMatch_iff (f c : Cell) : (f.x == c.x && f.y == c.y) = true ↔ f = c := by
  cases f; cases c
  simp [Cell.mk.injEq]

/-- `isCellOccupiedBySnake` is list membership. -/
theorem isCellOccupiedBySnake_iff (c : Cell) (l : List Cell) :
    isCellOccupiedBySnake c l = true ↔ c ∈ l := by
  simp only [isCellOccupiedBySnake, List.any_eq_true, cellMatch_iff]
  constructor
  · rintro ⟨seg, hseg, rfl⟩; exact hseg
  · intro h; exact ⟨c, h, rfl⟩

/-! ### C3: wrap-around of `computeNextCell` -/

/-- C3: for every cell with coordinates in `[0, gridWidth) × [0, gridHeight)`
and every direction, `computeNextCell` keeps both coordinates in range; a
coordinate that would become negative wraps to `dimension - 1`, one that would
reach `dimension` wraps to `0`, and a coordinate that stays in range moves by
exactly one (the other coordinate is unchanged).  Moving Left from `x = 0`
yields `gridWidth - 1`, moving Right from `x = gridWidth - 1` yields `0`, and
symmetrically in `y` (in this code `Up` is `y + 1`, `Down` is `y - 1`). -/
theorem computeNextCell_wraps (env : Env) (c : Cell) (d : Direction)
    (hw : 0 < env.gridWidth) (hh : 0 < env.gridHeight)
    (hx : 0 ≤ c.x ∧ c.x < env.gridWidth) (hy : 0 ≤ c.y ∧ c.y < env.gridHeight) :
    (0 ≤ (computeNextCell env c d).x ∧ (computeNextCell env c d).x < env.gridWidth ∧
      0 ≤ (computeNextCell env c d).y ∧ (computeNextCell env c d).y < env.gridHeight) ∧
    (d = Direction.Left →
      (computeNextCell env c d).y = c.y ∧
      (c.x = 0 → (computeNextCell env c d).x = env.gridWidth - 1) ∧
      (0 < c.x → (computeNextCell env c d).x = c.x - 1)) ∧
    (d = Direction.Right →
      (computeNextCell env c d).y = c.y ∧
      (c.x = env.gridWidth - 1 → (computeNextCell env c d).x = 0) ∧
      (c.x < env.gridWidth - 1 → (computeNextCell env c d).x = c.x + 1)) ∧
    (d = Direction.Up →
      (computeNextCell env c d).x = c.x ∧
      (c.y = env.gridHeight - 1 → (computeNextCell env c d).y = 0) ∧
      (c.y < env.gridHeight - 1 → (computeNextCell env c d).y = c.y + 1)) ∧
    (d = Direction.Down →
      (computeNextCell env c d).x = c.x ∧
      (c.y = 0 → (computeNextCell env c d).y = env.gridHeight - 1) ∧
      (0 < c.y → (computeNextCell env c d).y = c.y - 1)) := by
  obtain ⟨hx0, hx1⟩ := hx
  obtain ⟨hy0, hy1⟩ := hy
  cases d <;>
    refine ⟨?_, ?_, ?_, ?_, ?_⟩ <;>
    first
      | (intro hEq; exact absurd hEq (by decide))
      | (refine ⟨?_, ?_, ?_, ?_⟩ <;> (dsimp only [computeNextCell]; split_ifs <;> omega))
      | (intro hEq
         refine ⟨?_, fun h => ?_, fun h => ?_⟩ <;>
           (dsimp only [computeNextCell]; split_ifs <;> omega))

/-- Witness for C3 at a concrete input: moving Left from `x = 0` on the 10×10
grid lands at `x = gridWidth - 1`. -/
theorem computeNextCell_wraps_witness :
    (0 : Int) < envH.gridWidth ∧
      (computeNextCell envH ⟨0, 5⟩ Direction.Left).x = envH.gridWidth - 1 :=
  ⟨by decide,
    ((computeNextCell_wraps envH ⟨0, 5⟩ Direction.Left (by decide) (by decide)
        (by decide) (by decide)).2.1 rfl).2.1 rfl⟩

/-! ### C10: empty snakes make the tick a no-op -/

/-- C10: if the player snake or the bot snake is empty when a tick fires,
`advanceSnake` returns immediately and leaves the entire simulation state
unchanged. -/
theorem advanceSnake_noop_when_empty (fuel : Nat) (env : Env) (s : SimState)
    (h : s.snake = [] ∨ s.botSnake = []) :
    advanceSnakeF fuel env s = s := by
  unfold advanceSnakeF advanceSnakeRF
  rcases h with h | h <;> simp [h]

/-- Witness for C10: a state without a bot snake is left untouched by a tick. -/
theorem advanceSnake_noop_when_empty_witness :
    sNoBot.botSnake = [] ∧ advanceSnakeF 1 envH sNoBot = sNoBot :=
  ⟨rfl, advanceSnake_noop_when_empty 1 envH sNoBot (Or.inr rfl)⟩

/-! ### C7: spawnFood saturation fallback -/

/-- C7: when `spawnFood` still wants food (`food.size() < targetFoodCount`)
and finds zero unoccupied cells, it performs a full game reset instead of
spawning (totally, with no error path); when the food list is already at or
above `targetFoodCount`, it changes nothing. -/
theorem spawnFood_saturation (env : Env) (s : SimState) (n : Nat) :
    (env.targetFoodCount ≤ s.food.length → spawnFoodF (n + 1) env s = s) ∧
    (s.food.length < env.targetFoodCount → emptyCellsList env s = [] →
      spawnFoodF (n + 1) env s = resetGameF n env) := by
  constructor
  · intro h
    simp [spawnFoodF, h]
  · intro h1 h2
    simp [spawnFoodF, h2, Nat.not_le.mpr h1, resetGameF]

/-- Witness for C7: on the saturated 2×2 board, `spawnFood` becomes a full
reset. -/
theorem spawnFood_saturation_witness :
    (sSat.food.length < envT.targetFoodCount ∧ emptyCellsList envT sSat = []) ∧
      spawnFoodF 1 envT sSat = resetGameF 0 envT :=
  ⟨by decide, (spawnFood_saturation envT sSat 0).2 (by decide) (by decide)⟩

/-! ### C6: reset completeness -/

/-- Every reset, at any recursion depth, leaves the seeded snakes, default
directions, zero accumulator and the dirty flag. -/
theorem resetGameF_proj (env : Env) : ∀ n : Nat,
    (resetGameF n env).snake = (seedState env).snake ∧
    (resetGameF n env).botSnake = (seedState env).botSnake ∧
    (resetGameF n env).direction = Direction.Right ∧
    (resetGameF n env).queuedDirection = Direction.Right ∧
    (resetGameF n env).botDirection = Direction.Left ∧
    (resetGameF n env).timeAcc = 0 ∧
    (resetGameF n env).needsModelUpdate = true := by
  intro n
  induction n with
  | zero => simp [resetGameF, spawnFoodF, seedState]
  | succ n ih =>
    simp only [resetGameF, spawnFoodF]
    split_ifs with h1 h2 h3
    · simp [seedState]
    · simpa [resetGameF] using ih
    · simp [seedState]
    · simp [seedState]

/-- On a board whose reseeded state is saturated, no reset ever produces
food. -/
theorem spawnFood_sat_food_nil (env : Env)
    (hE : emptyCellsList env (seedState env) = []) :
    ∀ n, (spawnFoodF n env (seedState env)).food = [] := by
  intro n
  induction n with
  | zero => rfl
  | succ n ih =>
    simp only [spawnFoodF]
    split_ifs with h1 h2 h3
    · rfl
    · simpa using ih
    · exact absurd (by simp [hE]) h2
    · exact absurd (by simp [hE]) h2

/-- After a reset the food list holds exactly
`min targetFoodCount emptyCellCount` items (the shuffle only permutes, so it
preserves length). -/
theorem resetGameF_food_length (env : Env) (n : Nat)
    (hsh : ∀ l : List Cell, (env.shuffle l).length = l.length) :
    (resetGameF (n + 1) env).food.length =
      min env.targetFoodCount (emptyCellsList env (seedState env)).length := by
  simp only [resetGameF, spawnFoodF]
  split_ifs with h1 h2 h3
  · have h0 : env.targetFoodCount = 0 := by
      simpa [seedState] using h1
    simp [seedState, h0]
  · have hE : emptyCellsList env (seedState env) = [] := by
      simpa using h2
    rw [hE]
    simp [spawnFood_sat_food_nil env hE n]
  · simp only [seedState, List.length_nil, Nat.sub_zero, List.nil_append,
      List.length_take, hsh]
    omega
  · simp only [seedState, List.length_nil, Nat.sub_zero, List.nil_append,
      List.length_take, hsh]
    omega

/-- C6: after any reset (all collision, saturation and explicit-reset paths
funnel through `resetGame`), the state has both snakes of length exactly 3 at
the fixed non-overlapping start offsets, player direction and queued direction
`Right`, bot direction `Left`, food list of size
`min targetFoodCount emptyCellCount`, a zero tick accumulator, and the dirty
flag set. -/
theorem resetGame_completeness (env : Env) (n : Nat)
    (hsh : ∀ l : List Cell, (env.shuffle l).length = l.length) :
    (resetGameF (n + 1) env).snake =
      [⟨env.gridWidth / 2, env.gridHeight / 2⟩,
        ⟨env.gridWidth / 2 - 1, env.gridHeight / 2⟩,
        ⟨env.gridWidth / 2 - 2, env.gridHeight / 2⟩] ∧
    (resetGameF (n + 1) env).botSnake =
      [⟨env.gridWidth / 2, env.gridHeight / 2 + 3⟩,
        ⟨env.gridWidth / 2 + 1, env.gridHeight / 2 + 3⟩,
        ⟨env.gridWidth / 2 + 2, env.gridHeight / 2 + 3⟩] ∧
    (resetGameF (n + 1) env).snake.length = 3 ∧
    (resetGameF (n + 1) env).botSnake.length = 3 ∧
    (∀ c ∈ (resetGameF (n + 1) env).snake, c ∉ (resetGameF (n + 1) env).botSnake) ∧
    (resetGameF (n + 1) env).direction = Direction.Right ∧
    (resetGameF (n + 1) env).queuedDirection = Direction.Right ∧
    (resetGameF (n + 1) env).botDirection = Direction.Left ∧
    (resetGameF (n + 1) env).food.length =
      min env.targetFoodCount (emptyCellsList env (seedState env)).length ∧
    (resetGameF (n + 1) env).timeAcc = 0 ∧
    (resetGameF (n + 1) env).needsModelUpdate = true := by
  obtain ⟨hsn, hbt, hdir, hq, hbd, hacc, hdirty⟩ := resetGameF_proj env (n + 1)
  have hsn' : (resetGameF (n + 1) env).snake =
      [⟨env.gridWidth / 2, env.gridHeight / 2⟩,
        ⟨env.gridWidth / 2 - 1, env.gridHeight / 2⟩,
        ⟨env.gridWidth / 2 - 2, env.gridHeight / 2⟩] := by
    rw [hsn]; rfl
  have hbt' : (resetGameF (n + 1) env).botSnake =
      [⟨env.gridWidth / 2, env.gridHeight / 2 + 3⟩,
        ⟨env.gridWidth / 2 + 1, env.gridHeight / 2 + 3⟩,
        ⟨env.gridWidth / 2 + 2, env.gridHeight / 2 + 3⟩] := by
    rw [hbt]; rfl
  refine ⟨hsn', hbt', by rw [hsn']; rfl, by rw [hbt']; rfl, ?_, hdir, hq, hbd,
    resetGameF_food_length env n hsh, hacc, hdirty⟩
  intro c hc hc'
  rw [hsn'] at hc
  rw [hbt'] at hc'
  simp only [List.mem_cons, List.not_mem_nil, or_false] at hc hc'
  have hy : c.y = env.gridHeight / 2 := by
    rcases hc with rfl | rfl | rfl <;> rfl
  have hy' : c.y = env.gridHeight / 2 + 3 := by
    rcases hc' with rfl | rfl | rfl <;> rfl
  omega

/-- Witness for C6 at the 10×10 environment with the identity shuffle. -/
theorem resetGame_completeness_witness :
    (resetGameF 1 envH).snake.length = 3 ∧
      (resetGameF 1 envH).food.length =
        min envH.targetFoodCount (emptyCellsList envH (seedState envH)).length :=
  ⟨(resetGame_completeness envH 0 (fun _ => rfl)).2.2.1,
    (resetGame_completeness envH 0 (fun _ => rfl)).2.2.2.2.2.2.2.2.1⟩

/-! ### C4: anti-reversal (corrected) -/

/-- A direction is never its own opposite, and `isOpposite` matches
`oppositeDir`. -/
theorem isOpposite_ne (r d : Direction) (h : isOpposite r d = true) : r ≠ d := by
  cases r <;> cases d <;> simp_all [isOpposite]

/-- Counterexample to C4 as stated: the claim quantifies over snakes of
length `≤ 1`, but for the empty snake (length `0 ≤ 1`) queuing the exact
opposite direction is accepted into `queuedDirection` while the next tick
returns immediately (`advanceSnake`'s empty guard), so the committed direction
does not change. -/
theorem queue_opposite_short_cex :
    sEmptyPlayer.snake.length ≤ 1 ∧
      isOpposite Direction.Left sEmptyPlayer.direction = true ∧
      (queueDirection Direction.Left sEmptyPlayer).queuedDirection = Direction.Left ∧
      (advanceSnakeF 1 envH (queueDirection Direction.Left sEmptyPlayer)).direction =
        sEmptyPlayer.direction := by
  refine ⟨by decide, by decide, by decide, ?_⟩
  decide

/-- C4 (amended): queuing the exact opposite of the committed direction is
rejected for a snake of length `> 1` (the state is completely unchanged), and
is rejected again at commit time even if the opposite is already queued; for a
snake of length exactly `1` the opposite is accepted and the commit step at
the start of the next tick promotes it, changing the committed direction.
(For an empty snake — length `0 ≤ 1` — the tick is a no-op and the committed
direction never changes; see the counterexample.) -/
theorem queue_opposite_anti_reversal (s : SimState) (r : Direction)
    (hr : isOpposite r s.direction = true) :
    (1 < s.snake.length → queueDirection r s = s) ∧
    (1 < s.snake.length → isOpposite s.queuedDirection s.direction = true →
      commitDirection s = s.direction) ∧
    (s.snake.length = 1 →
      commitDirection (queueDirection r s) = r ∧ r ≠ s.direction) := by
  refine ⟨?_, ?_, ?_⟩
  · intro hlen
    unfold queueDirection
    rw [hr]
    simp [Nat.not_le.mpr hlen]
  · intro hlen hq
    unfold commitDirection
    rw [hq]
    simp [Nat.not_le.mpr hlen]
  · intro hlen
    refine ⟨?_, isOpposite_ne r s.direction hr⟩
    unfold queueDirection commitDirection
    rw [hr]
    simp [hlen]

/-- Witness for C4 (amended), applying the theorem once to a length-3 snake
and once to a length-1 snake. -/
theorem queue_opposite_anti_reversal_witness :
    (isOpposite Direction.Left sHeadOn.direction = true ∧ 1 < sHeadOn.snake.length ∧
      queueDirection Direction.Left sHeadOn = sHeadOn) ∧
    (isOpposite Direction.Left sEat.direction = true ∧ { sEat with snake := [⟨5, 5⟩] }.snake.length = 1 ∧
      commitDirection (queueDirection Direction.Left { sEat with snake := [⟨5, 5⟩] }) =
        Direction.Left) :=
  ⟨⟨by decide, by decide,
      (queue_opposite_anti_reversal sHeadOn Direction.Left (by decide)).1 (by decide)⟩,
    ⟨by decide, by decide,
      ((queue_opposite_anti_reversal { sEat with snake := [⟨5, 5⟩] } Direction.Left
          (by decide)).2.2 (by decide)).1⟩⟩

/-! ### C5: greedy bot decision -/

/-- `List.find?` only depends on the predicate's values on the list. -/
theorem findq_congr {α : Type} (p q : α → Bool) :
    ∀ l : List α, (∀ x ∈ l, p x = q x) → l.find? p = l.find? q := by
  intro l
  induction l with
  | nil => intro _; rfl
  | cons a t ih =>
    intro h
    have ha := h a (List.mem_cons_self a t)
    simp only [List.find?_cons]
    rw [ha]
    cases hqa : q a
    · exact ih fun x hx => h x (List.mem_cons_of_mem a hx)
    · rfl

/-- A fold of running minima never exceeds its initial accumulator. -/
theorem foldl_min_le_init (g : Cell → Int) :
    ∀ (l : List Cell) (acc : Int), l.foldl (fun a y => min a (g y)) acc ≤ acc := by
  intro l
  induction l with
  | nil => intro acc; exact le_refl acc
  | cons y t ih =>
    intro acc
    calc (y :: t).foldl (fun a y => min a (g y)) acc
        = t.foldl (fun a y => min a (g y)) (min acc (g y)) := rfl
      _ ≤ min acc (g y) := ih _
      _ ≤ acc := min_le_left _ _

/-- A fold of running minima is bounded by any member's value. -/
theorem foldl_min_le_mem (g : Cell → Int) :
    ∀ (l : List Cell) (acc : Int) (x : Cell), x ∈ l →
      l.foldl (fun a y => min a (g y)) acc ≤ g x := by
  intro l
  induction l with
  | nil => intro acc x hx; cases hx
  | cons y t ih =>
    intro acc x hx
    rcases List.mem_cons.mp hx with rfl | hx'
    · calc (x :: t).foldl (fun a y => min a (g y)) acc
          = t.foldl (fun a y => min a (g y)) (min acc (g x)) := rfl
        _ ≤ min acc (g x) := foldl_min_le_init g t _
        _ ≤ g x := min_le_right _ _
    · exact ih _ x hx'

/-- The wrapped per-axis distance of two in-range coordinates is below the
dimension. -/
theorem axisDist_le (a b dim : Int) (hd : 0 < dim) (ha : 0 ≤ a) (ha' : a < dim)
    (hb : 0 ≤ b) (hb' : b < dim) : axisDist a b dim ≤ dim - 1 := by
  unfold axisDist
  simp only [if_pos hd]
  omega

/-- `computeNextCell` always lands in range when both dimensions are
positive, whatever the input cell. -/
theorem computeNextCell_range (env : Env) (c : Cell) (d : Direction)
    (hw : 0 < env.gridWidth) (hh : 0 < env.gridHeight) :
    0 ≤ (computeNextCell env c d).x ∧ (computeNextCell env c d).x < env.gridWidth ∧
      0 ≤ (computeNextCell env c d).y ∧ (computeNextCell env c d).y < env.gridHeight := by
  cases d <;> (dsimp only [computeNextCell]; split_ifs <;> omega)

/-- With in-range food and dimensions summing below the sentinel, every
candidate distance stays strictly below `INT_MAX`. -/
theorem candidateDistance_lt (env : Env) (s : SimState) (nc : Cell)
    (hw : 0 < env.gridWidth) (hh : 0 < env.gridHeight)
    (hbound : env.gridWidth + env.gridHeight ≤ intMaxC)
    (hfood : ∀ f ∈ s.food, 0 ≤ f.x ∧ f.x < env.gridWidth ∧ 0 ≤ f.y ∧ f.y < env.gridHeight)
    (hnc : 0 ≤ nc.x ∧ nc.x < env.gridWidth ∧ 0 ≤ nc.y ∧ nc.y < env.gridHeight) :
    candidateDistance env s nc < intMaxC := by
  obtain ⟨hncx0, hncx1, hncy0, hncy1⟩ := hnc
  unfold candidateDistance
  cases hf : s.food with
  | nil =>
    simp only [List.isEmpty_nil, if_pos]
    unfold intMaxC
    omega
  | cons f0 rest =>
    have hf0 : f0 ∈ s.food := by rw [hf]; exact List.mem_cons_self f0 rest
    obtain ⟨hfx0, hfx1, hfy0, hfy1⟩ := hfood f0 hf0
    have hle : (f0 :: rest).foldl
        (fun acc f =>
          min acc (axisDist nc.x f.x env.gridWidth + axisDist nc.y f.y env.gridHeight))
        intMaxC ≤ axisDist nc.x f0.x env.gridWidth + axisDist nc.y f0.y env.gridHeight :=
      foldl_min_le_mem _ _ _ f0 (List.mem_cons_self f0 rest)
    have hx := axisDist_le nc.x f0.x env.gridWidth hw hncx0 hncx1 hfx0 hfx1
    have hy := axisDist_le nc.y f0.y env.gridHeight hh hncy0 hncy1 hfy0 hfy1
    simp only [List.isEmpty_cons, if_neg Bool.false_ne_true]
    omega

/-- Every nonempty list of directions has a member minimizing an integer
measure. -/
theorem exists_min_member (δ : Direction → Int) :
    ∀ l : List Direction, l ≠ [] → ∃ m ∈ l, ∀ e ∈ l, δ m ≤ δ e := by
  intro l
  induction l with
  | nil => intro h; exact absurd rfl h
  | cons a t ih =>
    intro _
    by_cases ht : t = []
    · subst ht
      refine ⟨a, by simp, ?_⟩
      intro e he
      simp only [List.mem_singleton] at he
      subst he
      exact le_refl _
    · obtain ⟨m, hm, hmin⟩ := ih ht
      by_cases hc : δ a ≤ δ m
      · refine ⟨a, by simp, ?_⟩
        intro e he
        rcases List.mem_cons.mp he with rfl | he'
        · exact le_refl _
        · exact le_trans hc (hmin e he')
      · refine ⟨m, List.mem_cons_of_mem a hm, ?_⟩
        intro e he
        rcases List.mem_cons.mp he with rfl | he'
        · exact le_of_lt (not_le.mp hc)
        · exact hmin e he'

/-- The candidate loop of `chooseBotDirection` computes the first minimizer:
if some kept direction beats the running best `b`, the result is the first
kept direction whose distance is minimal among all kept directions, otherwise
the initial direction survives. -/
theorem chooseFold_characterization (δ : Direction → Int) (keep : Direction → Bool) :
    ∀ (l : List Direction) (bd : Direction) (b : Int),
      (chooseFold δ keep l (bd, b)).1 =
        if (l.filter keep).any (fun x => decide (δ x < b)) then
          ((l.filter keep).find?
              (fun x => (l.filter keep).all (fun e => decide (δ x ≤ δ e)))).getD bd
        else bd := by
  intro l
  induction l with
  | nil =>
    intro bd b
    simp [chooseFold]
  | cons d ds ih =>
    intro bd b
    cases hk : keep d with
    | false =>
      simp only [chooseFold, hk, Bool.false_and, List.filter_cons, Bool.false_eq_true,
        if_false]
      exact ih bd b
    | true =>
      simp only [chooseFold, hk, Bool.true_and, List.filter_cons, if_true]
      cases hlt : decide (δ d < b) with
      | true =>
        have hdb : δ d < b := of_decide_eq_true hlt
        simp only [if_true]
        rw [ih d (δ d)]
        have hany : ((d :: ds.filter keep).any fun x => decide (δ x < b)) = true := by
          simp only [List.any_cons, hlt, Bool.true_or]
        rw [if_pos hany]
        by_cases hex : ((ds.filter keep).any fun x => decide (δ x < δ d)) = true
        · rw [if_pos hex]
          obtain ⟨e0, he0mem, he0⟩ := List.any_eq_true.mp hex
          have he0' : δ e0 < δ d := of_decide_eq_true he0
          -- the head fails the minimality test
          have hPd : ((d :: ds.filter keep).all fun e => decide (δ d ≤ δ e)) = false := by
            apply List.all_eq_false.mpr
            exact ⟨e0, List.mem_cons_of_mem d he0mem, by simp [not_le.mpr he0']⟩
          rw [List.find?_cons, hPd]
          -- on tail members the two minimality predicates agree
          have hcongr :
              (ds.filter keep).find?
                  (fun x => (d :: ds.filter keep).all fun e => decide (δ x ≤ δ e)) =
                (ds.filter keep).find?
                  (fun x => (ds.filter keep).all fun e => decide (δ x ≤ δ e)) := by
            apply findq_congr
            intro x hx
            cases hPx : ((ds.filter keep).all fun e => decide (δ x ≤ δ e)) with
            | true =>
              have hxe0 : δ x ≤ δ e0 := by
                have := List.all_eq_true.mp hPx e0 he0mem
                exact of_decide_eq_true this
              have hxd : δ x ≤ δ d := le_of_lt (lt_of_le_of_lt hxe0 he0')
              simp only [List.all_cons, hPx, decide_eq_true hxd, Bool.true_and]
            | false =>
              simp only [List.all_cons, hPx, Bool.and_false]
          rw [hcongr]
          -- a first minimizer exists, so both defaults are irrelevant
          obtain ⟨m, hmmem, hmmin⟩ :=
            exists_min_member δ (ds.filter keep) (List.ne_nil_of_mem he0mem)
          have hsome : ((ds.filter keep).find?
              (fun x => (ds.filter keep).all fun e => decide (δ x ≤ δ e))).isSome := by
            rw [List.find?_isSome]
            exact ⟨m, hmmem, List.all_eq_true.mpr fun e he => decide_eq_true (hmmin e he)⟩
          obtain ⟨m', hm'⟩ := Option.isSome_iff_exists.mp hsome
          rw [hm']
          rfl
        · have hex' : ((ds.filter keep).any fun x => decide (δ x < δ d)) = false := by
            simpa using hex
          rw [if_neg (by simp [hex'])]
          have hall : ∀ e ∈ ds.filter keep, δ d ≤ δ e := by
            intro e he
            by_contra hcon
            have : ((ds.filter keep).any fun x => decide (δ x < δ d)) = true :=
              List.any_eq_true.mpr ⟨e, he, decide_eq_true (not_le.mp hcon)⟩
            rw [hex'] at this
            cases this
          have hPd : ((d :: ds.filter keep).all fun e => decide (δ d ≤ δ e)) = true := by
            apply List.all_eq_true.mpr
            intro e he
            rcases List.mem_cons.mp he with rfl | he'
            · exact decide_eq_true (le_refl (δ e))
            · exact decide_eq_true (hall e he')
          rw [List.find?_cons, hPd]
          rfl
      | false =>
        have hdb : ¬ δ d < b := of_decide_eq_false hlt
        rw [if_neg Bool.false_ne_true]
        rw [ih bd b]
        have hanyc : ((d :: ds.filter keep).any fun x => decide (δ x < b)) =
            ((ds.filter keep).any fun x => decide (δ x < b)) := by
          simp only [List.any_cons, hlt, Bool.false_or]
        rw [hanyc]
        by_cases hany : ((ds.filter keep).any fun x => decide (δ x < b)) = true
        · rw [if_pos hany, if_pos hany]
          obtain ⟨e0, he0mem, he0⟩ := List.any_eq_true.mp hany
          have he0' : δ e0 < b := of_decide_eq_true he0
          have he0d : δ e0 < δ d := lt_of_lt_of_le he0' (not_lt.mp hdb)
          have hPd : ((d :: ds.filter keep).all fun e => decide (δ d ≤ δ e)) = false := by
            apply List.all_eq_false.mpr
            exact ⟨e0, List.mem_cons_of_mem d he0mem, by simp [not_le.mpr he0d]⟩
          rw [List.find?_cons, hPd]
          apply congrArg (fun o => Option.getD o bd)
          apply findq_congr
          intro x hx
          cases hPx : ((ds.filter keep).all fun e => decide (δ x ≤ δ e)) with
          | true =>
            have hxe0 : δ x ≤ δ e0 := by
              have := List.all_eq_true.mp hPx e0 he0mem
              exact of_decide_eq_true this
            have hxd : δ x ≤ δ d := le_of_lt (lt_of_le_of_lt hxe0 he0d)
            simp only [List.all_cons, hPx, decide_eq_true hxd, Bool.true_and]
          | false =>
            simp only [List.all_cons, hPx, Bool.and_false]
        · have hany' : ((ds.filter keep).any fun x => decide (δ x < b)) = false := by
            simpa using hany
          rw [if_neg (by simp [hany']), if_neg (by simp [hany'])]

/-- C5: for every board state with a non-empty bot snake (positive grid
dimensions summing below `INT_MAX`, and in-range food cells, as in the real
configuration), `chooseBotDirection` returns the first direction in the fixed
enumeration `{Up, Down, Left, Right}` among the surviving candidates — those
not reversing a longer-than-one bot and whose prospective wrapped next cell is
unoccupied by either body — that minimizes the minimum toroidal distance from
the prospective head to the food (`candidateDistance` treats all survivors
equally when no food exists, so ties and the no-food case resolve to the
earliest direction); when no candidate survives, it returns the current bot
direction unchanged. -/
theorem chooseBotDirection_greedy (env : Env) (s : SimState)
    (hb : s.botSnake ≠ [])
    (hw : 0 < env.gridWidth) (hh : 0 < env.gridHeight)
    (hbound : env.gridWidth + env.gridHeight ≤ intMaxC)
    (hfood : ∀ f ∈ s.food, 0 ≤ f.x ∧ f.x < env.gridWidth ∧ 0 ≤ f.y ∧ f.y < env.gridHeight) :
    chooseBotDirection env s =
      ((botCandidates env s).find?
          (fun d => (botCandidates env s).all
            (fun e => decide (botMoveDist env s d ≤ botMoveDist env s e)))).getD
        s.botDirection := by
  have hbe : s.botSnake.isEmpty = false := by
    cases h' : s.botSnake with
    | nil => exact absurd h' hb
    | cons a t => rfl
  unfold chooseBotDirection
  rw [hbe]
  rw [if_neg Bool.false_ne_true]
  rw [chooseFold_characterization (botMoveDist env s) (botKeep env s) dirList s.botDirection intMaxC]
  have hbc : dirList.filter (botKeep env s) = botCandidates env s := rfl
  rw [hbc]
  by_cases hcs : botCandidates env s = []
  · rw [hcs]
    simp
  · have hlt : ∀ d ∈ botCandidates env s, botMoveDist env s d < intMaxC := by
      intro d _
      exact candidateDistance_lt env s (computeNextCell env s.botSnake.headI d) hw hh hbound
        hfood (computeNextCell_range env s.botSnake.headI d hw hh)
    obtain ⟨d0, hd0⟩ := List.exists_mem_of_ne_nil (botCandidates env s) hcs
    have hany : ((botCandidates env s).any fun x => decide (botMoveDist env s x < intMaxC)) =
        true :=
      List.any_eq_true.mpr ⟨d0, hd0, decide_eq_true (hlt d0 hd0)⟩
    rw [if_pos hany]

/-- Witness for C5 on a concrete board (10×10, one food item, singleton bot). -/
theorem chooseBotDirection_greedy_witness :
    (sEat.botSnake ≠ [] ∧ (0 : Int) < envH.gridWidth) ∧
      chooseBotDirection envH sEat =
        ((botCandidates envH sEat).find?
            (fun d => (botCandidates envH sEat).all
              (fun e => decide (botMoveDist envH sEat d ≤ botMoveDist envH sEat e)))).getD
          sEat.botDirection :=
  ⟨⟨by decide, by decide⟩,
    chooseBotDirection_greedy envH sEat (by decide) (by decide) (by decide) (by decide)
      (by decide)⟩

/-! ### Tick branch analysis (used by C1, C2, C8) -/

/-- Folding equation for `playerNewHead`. -/
theorem playerNewHead_def (env : Env) (s : SimState) :
    computeNextCell env s.snake.headI (commitDirection s) = playerNewHead env s := rfl

/-- Folding equation for `botNewHead`. -/
theorem botNewHead_def (env : Env) (s : SimState) :
    computeNextCell env s.botSnake.headI (botCommitDirection env s) = botNewHead env s := rfl

/-- Committing the player direction does not affect the bot's decision. -/
theorem botNewHead_commit (env : Env) (s : SimState) :
    botNewHead env { s with direction := commitDirection s } = botNewHead env s := rfl

/-- Committing the player direction does not affect the bot's direction
update. -/
theorem botCommitDirection_commit (env : Env) (s : SimState) :
    botCommitDirection env { s with direction := commitDirection s } =
      botCommitDirection env s := rfl

/-- A non-empty list is not `isEmpty`. -/
theorem isEmpty_false_of_ne_nil {l : List Cell} (h : l ≠ []) : l.isEmpty = false := by
  cases h' : l with
  | nil => exact absurd h' h
  | cons a t => rfl

/-- `advanceBotSnake` on a bot collision: the whole state is reset and the
call reports failure. -/
theorem advanceBotF_collide (fuel : Nat) (env : Env) (s : SimState) (hb : s.botSnake ≠ [])
    (hcol : botNewHead env s ∈ s.botSnake ∨ botNewHead env s ∈ s.snake) :
    advanceBotF fuel env s = (resetGameF fuel env, false) := by
  have h1 : (isCellOccupiedBySnake (botNewHead env s) s.botSnake
      || isCellOccupiedBySnake (botNewHead env s) s.snake) = true := by
    rcases hcol with h | h
    · rw [(isCellOccupiedBySnake_iff _ _).mpr h]; rfl
    · rw [(isCellOccupiedBySnake_iff _ _).mpr h, Bool.or_true]
  unfold advanceBotF
  rw [isEmpty_false_of_ne_nil hb]
  rw [if_neg Bool.false_ne_true]
  dsimp only
  rw [botNewHead_def]
  rw [if_pos h1]

/-- `advanceBotSnake` without a collision: the bot commits its direction and
inserts its new head (the tail is popped later, by `advanceSnake`). -/
theorem advanceBotF_ok (fuel : Nat) (env : Env) (s : SimState) (hb : s.botSnake ≠ [])
    (hcol : ¬(botNewHead env s ∈ s.botSnake ∨ botNewHead env s ∈ s.snake)) :
    advanceBotF fuel env s =
      ({ s with botDirection := botCommitDirection env s,
                botSnake := botNewHead env s :: s.botSnake }, true) := by
  have h1 : (isCellOccupiedBySnake (botNewHead env s) s.botSnake
      || isCellOccupiedBySnake (botNewHead env s) s.snake) = false := by
    have ha : isCellOccupiedBySnake (botNewHead env s) s.botSnake = false := by
      rw [Bool.eq_false_iff]
      intro hx
      exact hcol (Or.inl ((isCellOccupiedBySnake_iff _ _).mp hx))
    have hb' : isCellOccupiedBySnake (botNewHead env s) s.snake = false := by
      rw [Bool.eq_false_iff]
      intro hx
      exact hcol (Or.inr ((isCellOccupiedBySnake_iff _ _).mp hx))
    rw [ha, hb', Bool.or_false]
  unfold advanceBotF
  rw [isEmpty_false_of_ne_nil hb]
  rw [if_neg Bool.false_ne_true]
  dsimp only
  rw [botNewHead_def]
  rw [if_neg (by rw [h1]; exact Bool.false_ne_true)]

/-- A tick whose bot move collides (with its own body or the player's
pre-move body) resets the whole state. -/
theorem advanceSnakeRF_botCollide (fuel : Nat) (env : Env) (s : SimState)
    (hs : s.snake ≠ []) (hb : s.botSnake ≠ [])
    (hcol : botNewHead env s ∈ s.botSnake ∨ botNewHead env s ∈ s.snake) :
    advanceSnakeRF fuel env s = (resetGameF fuel env, true, false) := by
  unfold advanceSnakeRF
  rw [isEmpty_false_of_ne_nil hs, isEmpty_false_of_ne_nil hb, Bool.or_self,
    if_neg Bool.false_ne_true]
  dsimp only
  rw [advanceBotF_collide fuel env { s with direction := commitDirection s } hb hcol]
  rfl

/-- A tick whose player move collides (with the player's own body or with the
bot's body as it stands after the bot's head insertion) resets the whole
state. -/
theorem advanceSnakeRF_playerCollide (fuel : Nat) (env : Env) (s : SimState)
    (hs : s.snake ≠ []) (hb : s.botSnake ≠ [])
    (hnc : ¬(botNewHead env s ∈ s.botSnake ∨ botNewHead env s ∈ s.snake))
    (hpc : playerNewHead env s ∈ s.snake ∨
      playerNewHead env s ∈ botNewHead env s :: s.botSnake) :
    advanceSnakeRF fuel env s = (resetGameF fuel env, true, false) := by
  unfold advanceSnakeRF
  rw [isEmpty_false_of_ne_nil hs, isEmpty_false_of_ne_nil hb, Bool.or_self,
    if_neg Bool.false_ne_true]
  dsimp only
  rw [advanceBotF_ok fuel env { s with direction := commitDirection s } hb hnc]
  dsimp only
  simp only [Bool.not_true, Bool.false_eq_true, if_false]
  rw [botNewHead_commit, botCommitDirection_commit, playerNewHead_def]
  have hcond : (isCellOccupiedBySnake (playerNewHead env s) s.snake
      || isCellOccupiedBySnake (playerNewHead env s) (botNewHead env s :: s.botSnake)) =
        true := by
    rcases hpc with h | h
    · rw [(isCellOccupiedBySnake_iff _ _).mpr h]; rfl
    · rw [(isCellOccupiedBySnake_iff _ _).mpr h, Bool.or_true]
  rw [if_pos hcond]

/-- A collision-free tick produces exactly the `tickStepped` state and can
only reset through the trailing `spawnFood` call (tracked by
`tickSpawnFlag`). -/
theorem advanceSnakeRF_step (fuel : Nat) (env : Env) (s : SimState)
    (hs : s.snake ≠ []) (hb : s.botSnake ≠ [])
    (hnc : ¬(botNewHead env s ∈ s.botSnake ∨ botNewHead env s ∈ s.snake))
    (hnp : ¬(playerNewHead env s ∈ s.snake ∨
      playerNewHead env s ∈ botNewHead env s :: s.botSnake)) :
    advanceSnakeRF fuel env s = (tickStepped fuel env s, false, tickSpawnFlag env s) := by
  unfold advanceSnakeRF
  rw [isEmpty_false_of_ne_nil hs, isEmpty_false_of_ne_nil hb, Bool.or_self,
    if_neg Bool.false_ne_true]
  dsimp only
  rw [advanceBotF_ok fuel env { s with direction := commitDirection s } hb hnc]
  dsimp only
  simp only [Bool.not_true, Bool.false_eq_true, if_false]
  rw [botNewHead_commit, botCommitDirection_commit, playerNewHead_def]
  have hcond : ¬((isCellOccupiedBySnake (playerNewHead env s) s.snake
      || isCellOccupiedBySnake (playerNewHead env s) (botNewHead env s :: s.botSnake)) =
        true) := by
    have h1 : isCellOccupiedBySnake (playerNewHead env s) s.snake = false := by
      rw [Bool.eq_false_iff]
      intro hx
      exact hnp (Or.inl ((isCellOccupiedBySnake_iff _ _).mp hx))
    have h2 : isCellOccupiedBySnake (playerNewHead env s)
        (botNewHead env s :: s.botSnake) = false := by
      rw [Bool.eq_false_iff]
      intro hx
      exact hnp (Or.inr ((isCellOccupiedBySnake_iff _ _).mp hx))
    rw [h1, h2, Bool.or_false]
    exact Bool.false_ne_true
  rw [if_neg hcond]
  simp only [List.headI_cons]
  have hd : ¬(((botNewHead env s).x == (playerNewHead env s).x &&
      (botNewHead env s).y == (playerNewHead env s).y) = true) := by
    intro hx
    have hbp : botNewHead env s = playerNewHead env s := (cellMatch_iff _ _).mp hx
    exact hnp (Or.inr (hbp ▸ List.mem_cons_self _ _))
  rw [if_neg hd]
  rfl

/-! ### C1: collisions fully reset the state -/

/-- C1: whenever a tick's advancing snake would land its new head on an
existing cell of its own body or of the other snake (each checked against the
bodies as the source checks them: the bot against both pre-move bodies, the
player against its own pre-move body and the bot's body), or the two new
heads coincide, the whole simulation state becomes exactly the reset state:
snakes re-seeded at length 3, directions defaulted, accumulator zeroed. -/
theorem collision_full_reset (fuel : Nat) (env : Env) (s : SimState)
    (hs : s.snake ≠ []) (hb : s.botSnake ≠ [])
    (hcol : playerNewHead env s ∈ s.snake ∨ playerNewHead env s ∈ s.botSnake ∨
      botNewHead env s ∈ s.botSnake ∨ botNewHead env s ∈ s.snake ∨
      playerNewHead env s = botNewHead env s) :
    advanceSnakeF fuel env s = resetGameF fuel env ∧
      (resetGameF fuel env).snake.length = 3 ∧
      (resetGameF fuel env).botSnake.length = 3 ∧
      (resetGameF fuel env).direction = Direction.Right ∧
      (resetGameF fuel env).queuedDirection = Direction.Right ∧
      (resetGameF fuel env).botDirection = Direction.Left ∧
      (resetGameF fuel env).timeAcc = 0 := by
  obtain ⟨hsn, hbt, hdir, hq, hbd, hacc, _⟩ := resetGameF_proj env fuel
  have hlen1 : (resetGameF fuel env).snake.length = 3 := by rw [hsn]; rfl
  have hlen2 : (resetGameF fuel env).botSnake.length = 3 := by rw [hbt]; rfl
  refine ⟨?_, hlen1, hlen2, hdir, hq, hbd, hacc⟩
  by_cases hnc : botNewHead env s ∈ s.botSnake ∨ botNewHead env s ∈ s.snake
  · unfold advanceSnakeF
    rw [advanceSnakeRF_botCollide fuel env s hs hb hnc]
  · have hpc : playerNewHead env s ∈ s.snake ∨
        playerNewHead env s ∈ botNewHead env s :: s.botSnake := by
      rcases hcol with h | h | h | h | h
      · exact Or.inl h
      · exact Or.inr (List.mem_cons_of_mem _ h)
      · exact absurd (Or.inl h) hnc
      · exact absurd (Or.inr h) hnc
      · exact Or.inr (by rw [h]; exact List.mem_cons_self _ _)
    unfold advanceSnakeF
    rw [advanceSnakeRF_playerCollide fuel env s hs hb hnc hpc]

/-- Witness for C1: the spec's head-on scenario ends the tick in a full
reset with both snakes back at length 3 (the player's new head `(6,5)` sits
on the bot's pre-move body). -/
theorem collision_full_reset_witness :
    (sHeadOn.snake ≠ [] ∧ playerNewHead envH sHeadOn ∈ sHeadOn.botSnake) ∧
      advanceSnakeF 1 envH sHeadOn = resetGameF 1 envH ∧
      (resetGameF 1 envH).snake.length = 3 ∧
      (resetGameF 1 envH).botSnake.length = 3 :=
  ⟨⟨by decide, by decide⟩,
    (collision_full_reset 1 envH sHeadOn (by decide) (by decide)
        (Or.inr (Or.inl (by decide)))).1,
    (collision_full_reset 1 envH sHeadOn (by decide) (by decide)
        (Or.inr (Or.inl (by decide)))).2.1,
    (collision_full_reset 1 envH sHeadOn (by decide) (by decide)
        (Or.inr (Or.inl (by decide)))).2.2.1⟩

/-! ### C8: which positions the collision checks see -/

/-- C8: within one tick the collision-reset decision is exactly the spec's
description — each snake's own-body and cross-body checks against the
opponent's pre-move positions, plus head-to-head coincidence of the two new
heads.  (In the source the player's cross-body check runs after the bot's
head insertion; since the only post-move cell is the bot's new head, that is
provably equivalent to pre-move cross-body checks plus the head-to-head
condition.) -/
theorem collision_check_semantics (fuel : Nat) (env : Env) (s : SimState)
    (hs : s.snake ≠ []) (hb : s.botSnake ≠ []) :
    (advanceSnakeRF fuel env s).2.1 = true ↔
      (playerNewHead env s ∈ s.snake ∨ playerNewHead env s ∈ s.botSnake ∨
        botNewHead env s ∈ s.botSnake ∨ botNewHead env s ∈ s.snake ∨
        playerNewHead env s = botNewHead env s) := by
  by_cases hnc : botNewHead env s ∈ s.botSnake ∨ botNewHead env s ∈ s.snake
  · rw [advanceSnakeRF_botCollide fuel env s hs hb hnc]
    refine ⟨fun _ => ?_, fun _ => rfl⟩
    rcases hnc with h | h
    · exact Or.inr (Or.inr (Or.inl h))
    · exact Or.inr (Or.inr (Or.inr (Or.inl h)))
  · by_cases hpc : playerNewHead env s ∈ s.snake ∨
        playerNewHead env s ∈ botNewHead env s :: s.botSnake
    · rw [advanceSnakeRF_playerCollide fuel env s hs hb hnc hpc]
      refine ⟨fun _ => ?_, fun _ => rfl⟩
      rcases hpc with h | h
      · exact Or.inl h
      · rcases List.mem_cons.mp h with heq | hmem
        · exact Or.inr (Or.inr (Or.inr (Or.inr heq)))
        · exact Or.inr (Or.inl hmem)
    · rw [advanceSnakeRF_step fuel env s hs hb hnc hpc]
      constructor
      · intro hfalse
        simp at hfalse
      · intro hrhs
        exfalso
        rcases hrhs with h | h | h | h | h
        · exact hpc (Or.inl h)
        · exact hpc (Or.inr (List.mem_cons_of_mem _ h))
        · exact hnc (Or.inl h)
        · exact hnc (Or.inr h)
        · exact hpc (Or.inr (by rw [h]; exact List.mem_cons_self _ _))

/-- Witness for C8 at the head-on scenario state: the tick performs a
collision reset, and the spec-side disjunction holds there. -/
theorem collision_check_semantics_witness :
    sHeadOn.snake ≠ [] ∧ (advanceSnakeRF 1 envH sHeadOn).2.1 = true :=
  ⟨by decide,
    (collision_check_semantics 1 envH sHeadOn (by decide) (by decide)).mpr (by decide)⟩

/-! ### C2: per-tick length invariant -/

/-- A `spawnFood` call that does not hit the saturation reset leaves both
snakes untouched (it only adds food and sets the dirty flag). -/
theorem spawnFoodF_frame (fuel : Nat) (env : Env) (s : SimState)
    (h : spawnWouldReset env s = false) :
    (spawnFoodF fuel env s).snake = s.snake ∧
      (spawnFoodF fuel env s).botSnake = s.botSnake := by
  cases fuel with
  | zero => exact ⟨rfl, rfl⟩
  | succ n =>
    simp only [spawnFoodF]
    split_ifs with h1 h2 h3
    · exact ⟨rfl, rfl⟩
    · exfalso
      unfold spawnWouldReset at h
      rw [decide_eq_true (Nat.not_le.mp h1), Bool.true_and] at h
      rw [h] at h2
      exact Bool.false_ne_true h2
    · exact ⟨rfl, rfl⟩
    · exact ⟨rfl, rfl⟩

/-- Length bookkeeping of a collision-free, saturation-free tick, computed on
the explicit `tickStepped` state. -/
theorem tick_length_core (fuel : Nat) (env : Env) (s : SimState)
    (hflag : tickSpawnFlag env s = false)
    (hne : playerNewHead env s ≠ botNewHead env s) :
    (tickStepped fuel env s).snake.length =
        s.snake.length + (if playerNewHead env s ∈ s.food then 1 else 0) ∧
      (tickStepped fuel env s).botSnake.length =
        s.botSnake.length + (if botNewHead env s ∈ s.food then 1 else 0) := by
  have hmemp : ((s.food.any fun f => f.x == (playerNewHead env s).x &&
      f.y == (playerNewHead env s).y) = true) ↔ playerNewHead env s ∈ s.food :=
    isCellOccupiedBySnake_iff _ _
  have hmemb : (((s.food.filter fun f => !(f.x == (playerNewHead env s).x &&
        f.y == (playerNewHead env s).y)).any fun f => f.x == (botNewHead env s).x &&
        f.y == (botNewHead env s).y) = true) ↔ botNewHead env s ∈ s.food := by
    have h1 : (((s.food.filter fun f => !(f.x == (playerNewHead env s).x &&
        f.y == (playerNewHead env s).y)).any fun f => f.x == (botNewHead env s).x &&
        f.y == (botNewHead env s).y) = true) ↔
        botNewHead env s ∈ s.food.filter fun f => !(f.x == (playerNewHead env s).x &&
          f.y == (playerNewHead env s).y) := isCellOccupiedBySnake_iff _ _
    rw [h1, List.mem_filter]
    constructor
    · rintro ⟨h, _⟩
      exact h
    · intro h
      refine ⟨h, ?_⟩
      cases hx : ((botNewHead env s).x == (playerNewHead env s).x &&
          (botNewHead env s).y == (playerNewHead env s).y) with
      | true => exact absurd ((cellMatch_iff _ _).mp hx).symm hne
      | false => rfl
  simp only [tickSpawnFlag] at hflag
  simp only [tickStepped]
  cases hxp : (s.food.any fun f => f.x == (playerNewHead env s).x &&
      f.y == (playerNewHead env s).y) with
  | true =>
    rw [hxp] at hflag
    have hp : playerNewHead env s ∈ s.food := hmemp.mp hxp
    cases hxb : ((s.food.filter fun f => !(f.x == (playerNewHead env s).x &&
        f.y == (playerNewHead env s).y)).any fun f => f.x == (botNewHead env s).x &&
        f.y == (botNewHead env s).y) with
    | true =>
      rw [hxb] at hflag
      simp only [eq_self_iff_true, if_true, Bool.true_or] at hflag ⊢
      obtain ⟨hfr1, hfr2⟩ := spawnFoodF_frame fuel env _ hflag
      rw [hfr1, hfr2]
      dsimp only
      rw [if_pos hp, if_pos (hmemb.mp hxb)]
      simp [List.length_cons]
    | false =>
      rw [hxb] at hflag
      simp only [eq_self_iff_true, if_true, Bool.true_or, Bool.false_eq_true, if_false]
        at hflag ⊢
      obtain ⟨hfr1, hfr2⟩ := spawnFoodF_frame fuel env _ hflag
      rw [hfr1, hfr2]
      dsimp only
      have hbm : botNewHead env s ∉ s.food := by
        intro hmem
        rw [hmemb.mpr hmem] at hxb
        exact absurd hxb (by simp)
      rw [if_pos hp, if_neg hbm]
      have hlen : ((botNewHead env s :: s.botSnake).dropLast).length = s.botSnake.length := by
        rw [List.length_dropLast, List.length_cons]
        omega
      simp [hlen, List.length_cons]
  | false =>
    rw [hxp] at hflag
    have hp : playerNewHead env s ∉ s.food := by
      intro hmem
      rw [hmemp.mpr hmem] at hxp
      exact absurd hxp (by simp)
    cases hxb : ((s.food.filter fun f => !(f.x == (playerNewHead env s).x &&
        f.y == (playerNewHead env s).y)).any fun f => f.x == (botNewHead env s).x &&
        f.y == (botNewHead env s).y) with
    | true =>
      rw [hxb] at hflag
      simp only [eq_self_iff_true, if_true, Bool.false_or, Bool.false_eq_true, if_false]
        at hflag ⊢
      obtain ⟨hfr1, hfr2⟩ := spawnFoodF_frame fuel env _ hflag
      rw [hfr1, hfr2]
      dsimp only
      rw [if_neg hp, if_pos (hmemb.mp hxb)]
      have hlen : ((playerNewHead env s :: s.snake).dropLast).length = s.snake.length := by
        rw [List.length_dropLast, List.length_cons]
        omega
      simp [hlen, List.length_cons]
    | false =>
      rw [hxb] at hflag
      simp only [Bool.false_or, Bool.false_eq_true, if_false]
      have hbm : botNewHead env s ∉ s.food := by
        intro hmem
        rw [hmemb.mpr hmem] at hxb
        exact absurd hxb (by simp)
      rw [if_neg hp, if_neg hbm]
      have hlen1 : ((playerNewHead env s :: s.snake).dropLast).length = s.snake.length := by
        rw [List.length_dropLast, List.length_cons]
        omega
      have hlen2 : ((botNewHead env s :: s.botSnake).dropLast).length = s.botSnake.length := by
        rw [List.length_dropLast, List.length_cons]
        omega
      simp [hlen1, hlen2]

/-- C2: in every tick that runs (both snakes non-empty) and does not end in a
reset (neither a collision reset nor a spawner saturation reset), each
surviving snake's length afterwards equals its length before plus 1 exactly
when its new head landed on a food cell that existed before the tick, and is
unchanged otherwise; lengths never drop below 1. -/
theorem tick_length_invariant (fuel : Nat) (env : Env) (s : SimState)
    (hs : s.snake ≠ []) (hb : s.botSnake ≠ [])
    (hnr : (advanceSnakeRF fuel env s).2.1 = false ∧
      (advanceSnakeRF fuel env s).2.2 = false) :
    (advanceSnakeF fuel env s).snake.length =
        s.snake.length + (if playerNewHead env s ∈ s.food then 1 else 0) ∧
      (advanceSnakeF fuel env s).botSnake.length =
        s.botSnake.length + (if botNewHead env s ∈ s.food then 1 else 0) ∧
      1 ≤ (advanceSnakeF fuel env s).snake.length ∧
      1 ≤ (advanceSnakeF fuel env s).botSnake.length := by
  obtain ⟨hf1, hf2⟩ := hnr
  have hnc : ¬(botNewHead env s ∈ s.botSnake ∨ botNewHead env s ∈ s.snake) := by
    intro hcol
    rw [advanceSnakeRF_botCollide fuel env s hs hb hcol] at hf1
    simp at hf1
  have hnp : ¬(playerNewHead env s ∈ s.snake ∨
      playerNewHead env s ∈ botNewHead env s :: s.botSnake) := by
    intro hcol
    rw [advanceSnakeRF_playerCollide fuel env s hs hb hnc hcol] at hf1
    simp at hf1
  have hne : playerNewHead env s ≠ botNewHead env s := by
    intro he
    exact hnp (Or.inr (by rw [he]; exact List.mem_cons_self _ _))
  have hstep := advanceSnakeRF_step fuel env s hs hb hnc hnp
  rw [hstep] at hf2
  have hflag : tickSpawnFlag env s = false := hf2
  obtain ⟨hl1, hl2⟩ := tick_length_core fuel env s hflag hne
  have hadv : advanceSnakeF fuel env s = tickStepped fuel env s := by
    unfold advanceSnakeF
    rw [hstep]
  rw [hadv]
  have hs1 : 0 < s.snake.length := List.length_pos.mpr hs
  have hb1 : 0 < s.botSnake.length := List.length_pos.mpr hb
  refine ⟨hl1, hl2, ?_, ?_⟩
  · rw [hl1]
    split_ifs <;> omega
  · rw [hl2]
    split_ifs <;> omega

/-- Witness for C2: the spec's food-consumption scenario — the player snake
`[(5,5),(4,5),(3,5)]` moving Right onto food at `(6,5)` ends the tick as
`[(6,5),(5,5),(4,5),(3,5)]` of length 4 with `(6,5)` gone from the food
list. -/
theorem tick_length_invariant_witness :
    (sEat.snake ≠ [] ∧ (advanceSnakeRF 1 envH sEat).2.1 = false) ∧
      (advanceSnakeF 1 envH sEat).snake.length =
        sEat.snake.length + (if playerNewHead envH sEat ∈ sEat.food then 1 else 0) ∧
      (advanceSnakeF 1 envH sEat).snake.length = 4 ∧
      (advanceSnakeF 1 envH sEat).snake = [⟨6, 5⟩, ⟨5, 5⟩, ⟨4, 5⟩, ⟨3, 5⟩] ∧
      (⟨6, 5⟩ : Cell) ∉ (advanceSnakeF 1 envH sEat).food :=
  ⟨⟨by decide, by decide⟩,
    (tick_length_invariant 1 envH sEat (by decide) (by decide) ⟨by decide, by decide⟩).1,
    by decide, by decide, by decide⟩

/-! ### C9: fixed-timestep drain (corrected) -/

/-- If every tick of a frame leaves the accumulator alone (so that each loop
iteration's net effect on it is the `moveInterval` subtraction), then after
`n` iterations the accumulator has dropped by `n * moveInterval`. -/
theorem iterate_acc_chain (f : SimState → SimState) (m : ℚ) (s0 : SimState) :
    ∀ n : Nat, (∀ i < n, (f^[i + 1] s0).timeAcc = (f^[i] s0).timeAcc - m) →
      (f^[n] s0).timeAcc = s0.timeAcc - n * m := by
  intro n
  induction n with
  | zero => intro _; simp
  | succ n ih =>
    intro h
    have h1 := h n (by omega)
    have h2 := ih fun i hi => h i (by omega)
    rw [h1, h2]
    push_cast
    ring

/-- The `while` loop of `Renderer::render`, characterized: when the ticks of
this frame keep their hands off the accumulator, the loop runs exactly
`⌊accumulator / moveInterval⌋` iterations. -/
theorem renderTicksF_spec (env : Env) (tickFuel : Nat) :
    ∀ (n loopFuel : Nat) (s0 : SimState),
      0 < env.moveInterval → 0 ≤ s0.timeAcc →
      (⌊s0.timeAcc / env.moveInterval⌋).toNat = n → n ≤ loopFuel →
      (∀ i < n, ((frameBody tickFuel env)^[i + 1] s0).timeAcc =
        ((frameBody tickFuel env)^[i] s0).timeAcc - env.moveInterval) →
      renderTicksF loopFuel tickFuel env s0 = ((frameBody tickFuel env)^[n] s0, n) := by
  intro n
  induction n with
  | zero =>
    intro loopFuel s0 hm ha hfl _ _
    have hnn : 0 ≤ ⌊s0.timeAcc / env.moveInterval⌋ :=
      Int.floor_nonneg.mpr (div_nonneg ha (le_of_lt hm))
    have hflo : ⌊s0.timeAcc / env.moveInterval⌋ = 0 := by omega
    have hlt : s0.timeAcc < env.moveInterval := by
      have h1 : s0.timeAcc / env.moveInterval < 1 := by
        have h2 := Int.lt_floor_add_one (s0.timeAcc / env.moveInterval)
        rw [hflo] at h2
        simpa using h2
      exact (div_lt_one hm).mp h1
    cases loopFuel with
    | zero => simp [renderTicksF]
    | succ k =>
      simp only [renderTicksF]
      rw [if_neg (not_le.mpr hlt)]
      simp
  | succ n ih =>
    intro loopFuel s0 hm ha hfl hfuel hstep
    have hnn : 0 ≤ ⌊s0.timeAcc / env.moveInterval⌋ :=
      Int.floor_nonneg.mpr (div_nonneg ha (le_of_lt hm))
    have hflo : ⌊s0.timeAcc / env.moveInterval⌋ = (n : Int) + 1 := by omega
    have hge : env.moveInterval ≤ s0.timeAcc := by
      have h1 : ((1 : Int) : ℚ) ≤ s0.timeAcc / env.moveInterval :=
        Int.le_floor.mp (by omega)
      rw [Int.cast_one] at h1
      exact (one_le_div hm).mp h1
    have hacc1 : (frameBody tickFuel env s0).timeAcc = s0.timeAcc - env.moveInterval := by
      have h1 := hstep 0 (by omega)
      simpa using h1
    cases loopFuel with
    | zero => omega
    | succ k =>
      have hfl' : (⌊(frameBody tickFuel env s0).timeAcc / env.moveInterval⌋).toNat = n := by
        rw [hacc1, sub_div, div_self (ne_of_gt hm)]
        have h2 := Int.floor_sub_int (s0.timeAcc / env.moveInterval) 1
        rw [Int.cast_one] at h2
        rw [h2]
        omega
      have hacc' : 0 ≤ (frameBody tickFuel env s0).timeAcc := by
        rw [hacc1]
        exact sub_nonneg.mpr hge
      have hstep' : ∀ i < n,
          ((frameBody tickFuel env)^[i + 1] (frameBody tickFuel env s0)).timeAcc =
            ((frameBody tickFuel env)^[i] (frameBody tickFuel env s0)).timeAcc -
              env.moveInterval := by
        intro i hi
        have h3 := hstep (i + 1) (by omega)
        simp only [Function.iterate_succ_apply] at h3 ⊢
        exact h3
      have ihapp := ih k (frameBody tickFuel env s0) hm hacc' hfl' (by omega) hstep'
      simp only [renderTicksF]
      rw [if_pos hge]
      rw [ihapp]
      simp only [Function.iterate_succ_apply]

/-- C9 (amended): for every frame with non-negative wall-clock delta `d`,
prior accumulator `a ∈ [0, moveInterval)` and positive `moveInterval` `m`,
provided no tick executed during the frame touches the accumulator (a game
reset zeroes it — see the counterexample), the render loop executes exactly
`⌊(a + d) / m⌋` ticks and leaves the accumulator at `(a + d) - m · ticks`,
which again lies in `[0, m)`. -/
theorem render_fixed_timestep (env : Env) (tickFuel loopFuel n : Nat) (s : SimState)
    (d : ℚ)
    (hm : 0 < env.moveInterval) (ha0 : 0 ≤ s.timeAcc) (ha1 : s.timeAcc < env.moveInterval)
    (hd : 0 ≤ d)
    (hn : (⌊(s.timeAcc + d) / env.moveInterval⌋).toNat = n)
    (hfuel : n ≤ loopFuel)
    (hnores : ∀ i < n,
      ((frameBody tickFuel env)^[i + 1] { s with timeAcc := s.timeAcc + d }).timeAcc =
        ((frameBody tickFuel env)^[i] { s with timeAcc := s.timeAcc + d }).timeAcc -
          env.moveInterval) :
    renderF loopFuel tickFuel env s d =
        ((frameBody tickFuel env)^[n] { s with timeAcc := s.timeAcc + d }, n) ∧
      (renderF loopFuel tickFuel env s d).1.timeAcc =
        (s.timeAcc + d) - n * env.moveInterval ∧
      0 ≤ (renderF loopFuel tickFuel env s d).1.timeAcc ∧
      (renderF loopFuel tickFuel env s d).1.timeAcc < env.moveInterval := by
  have hx0 : 0 ≤ s.timeAcc + d := add_nonneg ha0 hd
  have hmain := renderTicksF_spec env tickFuel n loopFuel { s with timeAcc := s.timeAcc + d }
    hm hx0 hn hfuel hnores
  have hchain := iterate_acc_chain (frameBody tickFuel env) env.moveInterval
    { s with timeAcc := s.timeAcc + d } n hnores
  have hrF : renderF loopFuel tickFuel env s d =
      renderTicksF loopFuel tickFuel env { s with timeAcc := s.timeAcc + d } := rfl
  have hnn : 0 ≤ ⌊(s.timeAcc + d) / env.moveInterval⌋ :=
    Int.floor_nonneg.mpr (div_nonneg hx0 (le_of_lt hm))
  have hflo : ⌊(s.timeAcc + d) / env.moveInterval⌋ = (n : Int) := by omega
  have hlow : (n : ℚ) * env.moveInterval ≤ s.timeAcc + d := by
    have h1 := Int.floor_le ((s.timeAcc + d) / env.moveInterval)
    rw [hflo] at h1
    push_cast at h1
    exact (le_div_iff hm).mp h1
  have hhigh : s.timeAcc + d < ((n : ℚ) + 1) * env.moveInterval := by
    have h1 := Int.lt_floor_add_one ((s.timeAcc + d) / env.moveInterval)
    rw [hflo] at h1
    push_cast at h1
    exact (div_lt_iff hm).mp h1
  have haccval : ((frameBody tickFuel env)^[n]
      ({ s with timeAcc := s.timeAcc + d } : SimState)).timeAcc =
      (s.timeAcc + d) - n * env.moveInterval := by
    rw [hchain]
  rw [hrF, hmain]
  refine ⟨rfl, haccval, ?_, ?_⟩
  · rw [haccval]
    nlinarith [hlow]
  · rw [haccval]
    nlinarith [hhigh]

/-- One unfolding of the render loop. -/
theorem renderTicksF_succ (k tickFuel : Nat) (env : Env) (s : SimState) :
    renderTicksF (k + 1) tickFuel env s =
      if env.moveInterval ≤ s.timeAcc then
        ((renderTicksF k tickFuel env (frameBody tickFuel env s)).1,
          (renderTicksF k tickFuel env (frameBody tickFuel env s)).2 + 1)
      else (s, 0) := rfl

/-- Counterexample to C9 as stated: in the head-on scenario frame with
`a = 0`, `d = 2`, `m = 1` every hypothesis of the claim holds and
`⌊(a + d)/m⌋ = 2`, yet the render loop executes only one tick: that tick's
collision reset zeroes the accumulator mid-frame and the drain stops. -/
theorem render_fixed_timestep_cex :
    (0 : ℚ) ≤ sHeadOn.timeAcc ∧ sHeadOn.timeAcc < envH.moveInterval ∧
      (0 : ℚ) ≤ 2 ∧ (0 : ℚ) < envH.moveInterval ∧
      (⌊(sHeadOn.timeAcc + 2) / envH.moveInterval⌋).toNat = 2 ∧
      (renderF 5 5 envH sHeadOn 2).2 = 1 := by
  refine ⟨le_refl 0, zero_lt_one, zero_le_two, zero_lt_one, ?_, ?_⟩
  · have hfl : ⌊(sHeadOn.timeAcc + 2) / envH.moveInterval⌋ = 2 := by
      apply Int.floor_eq_iff.mpr
      constructor
      · norm_num [sHeadOn, envH]
      · norm_num [sHeadOn, envH]
    rw [hfl]
    rfl
  · show (renderTicksF 5 5 envH { sHeadOn with timeAcc := sHeadOn.timeAcc + 2 }).2 = 1
    rw [renderTicksF_succ 4 5 envH { sHeadOn with timeAcc := sHeadOn.timeAcc + 2 }]
    rw [if_pos (by norm_num [envH, sHeadOn] :
      envH.moveInterval ≤ ({ sHeadOn with timeAcc := sHeadOn.timeAcc + 2 } : SimState).timeAcc)]
    have hbody : frameBody 5 envH { sHeadOn with timeAcc := sHeadOn.timeAcc + 2 } =
        resetGameF 5 envH := by
      show advanceSnakeF 5 envH _ = _
      unfold advanceSnakeF
      rw [advanceSnakeRF_playerCollide 5 envH _ (by decide) (by decide) (by decide)
        (by decide)]
    rw [hbody]
    obtain ⟨_, _, _, _, _, hacc0, _⟩ := resetGameF_proj envH 5
    rw [renderTicksF_succ 3 5 envH (resetGameF 5 envH)]
    rw [if_neg (by rw [hacc0]; norm_num [envH])]

/-- Witness for C9 (amended): a collision-free frame on the 10×10 board with
`a = 0`, `d = 2`, `m = 1` drains exactly 2 ticks, ending with accumulator
`(a + d) - 2m`. -/
theorem render_fixed_timestep_witness :
    ((0 : ℚ) < envH.moveInterval ∧
        (⌊(sFree.timeAcc + 2) / envH.moveInterval⌋).toNat = 2) ∧
      renderF 5 5 envH sFree 2 =
        ((frameBody 5 envH)^[2] { sFree with timeAcc := sFree.timeAcc + 2 }, 2) ∧
      (renderF 5 5 envH sFree 2).1.timeAcc =
        (sFree.timeAcc + 2) - 2 * envH.moveInterval :=
  ⟨⟨zero_lt_one, by simp [sFree, envH]⟩,
    (render_fixed_timestep envH 5 5 2 sFree 2 zero_lt_one (le_refl 0) zero_lt_one
        zero_le_two (by simp [sFree, envH]) (by decide)
        (by intro i hi; interval_cases i <;> rfl)).1,
    (render_fixed_timestep envH 5 5 2 sFree 2 zero_lt_one (le_refl 0) zero_lt_one
        zero_le_two (by simp [sFree, envH]) (by decide)
        (by intro i hi; interval_cases i <;> rfl)).2.1⟩
